import Mathlib

/-!
# Verification of the plebtap key-custody core

Shallow embedding of the plebtap repository's key-custody subsystem:

* `src/lib/utils/nip49.ts` — NIP-49-style envelope encryption
  (scrypt + XChaCha20-Poly1305, bech32 envelopes);
* `src/lib/services/crypto.ts` — mnemonic normalisation / validation,
  key derivation entry points, PIN verification hashing;
* `src/lib/types/security.ts` — validators and rate-limit constants;
* `src/lib/services/secureStorage.ts` — the persisted security record and
  its update operations;
* `src/lib/stores/relaySync.svelte.ts` — the security state machine
  (setup, unlock, rate limiting, sessions).

Third-party cryptographic primitives (the scrypt KDF, the
XChaCha20-Poly1305 AEAD, pbkdf2) are not part of the repository; they are
modelled as ideal primitives: the KDF is collision-free (distinct inputs
give distinct keys) and the AEAD is perfectly authenticated (decryption
succeeds exactly when key, nonce and associated data match the ones used
at encryption time).  Determinism of the primitives — equal inputs give
equal outputs — is exact, not an idealisation.  The bech32 codec of
`@scure/base` is modelled by its decoded form: a bech32 string is
represented by its human-readable part plus payload bytes, which is
faithful because `bech32.encode` and `bech32.decode` are mutually
inverse.  Randomness (`randomBytes`) and the clock (`Date.now()`) are
passed as explicit parameters.  Bytes are `Nat`s; byte truncation of
`Uint8Array.from` is written explicitly as `% 256`.
-/

namespace Plebtap

/-- Byte strings are lists of naturals (each byte `< 256` where it matters). -/
abbrev Bytes := List Nat

/-- The code points of a Lean string, used to serialise passwords into the
ideal AEAD transcript. -/
def strCodes (s : String) : List Nat := s.data.map Char.toNat

/-- Fragment of Unicode NFKC normalisation applied by JavaScript's
`String.prototype.normalize('NFKC')` (a platform primitive, not repository
code): fullwidth Latin letters U+FF21–U+FF3A / U+FF41–U+FF5A decompose to
their ASCII counterparts; every other character is left unchanged.  This is
exactly what real NFKC does on these characters; the rest of the NFKC table
is irrelevant to the inputs considered here. -/
def nfkcChar (c : Char) : Char :=
  if 0xFF41 ≤ c.toNat ∧ c.toNat ≤ 0xFF5A then Char.ofNat (c.toNat - 0xFF41 + 0x61)
  else if 0xFF21 ≤ c.toNat ∧ c.toNat ≤ 0xFF3A then Char.ofNat (c.toNat - 0xFF21 + 0x41)
  else c

/-- Model of `password.normalize('NFKC')` (character-wise application of
`nfkcChar`). -/
def normalizeNFKC (s : String) : String := ⟨s.data.map nfkcChar⟩

/-- Ideal model of the scrypt KDF output (`scrypt` from `@noble/hashes`):
the derived 32-byte key is represented by the inputs that determine it —
the code points of the NFKC-normalised password, the salt, and the cost
parameter `N`.  (`r = 8`, `p = 1`, `dkLen = 32` are fixed at every call
site.)  Distinct inputs give distinct keys: the ideal collision-free KDF. -/
structure ScryptKey where
  pw : List Nat
  salt : Bytes
  n : Nat
  deriving DecidableEq, Repr

/-- `scrypt(password.normalize('NFKC'), salt, { N: n, r: 8, p: 1, dkLen: 32 })`. -/
def scryptKDF (password : String) (salt : Bytes) (n : Nat) : ScryptKey :=
  ⟨strCodes (normalizeNFKC password), salt, n⟩

/-- The authenticated transcript an ideal XChaCha20-Poly1305 ciphertext
commits to: key, nonce and associated data, each length-prefixed so the
encoding is prefix-unambiguous. -/
def sealHeader (key : ScryptKey) (nonce aad : Bytes) : Bytes :=
  (key.pw.length :: key.pw) ++ (key.salt.length :: key.salt) ++ [key.n] ++
    (nonce.length :: nonce) ++ (aad.length :: aad)

/-- Ideal model of `xchacha20poly1305(key, nonce, aad).encrypt(pt)`: the
ciphertext commits to key, nonce, associated data and plaintext. -/
def xchachaEncrypt (key : ScryptKey) (nonce aad pt : Bytes) : Bytes :=
  sealHeader key nonce aad ++ pt

/-- Ideal model of `xchacha20poly1305(key, nonce, aad).decrypt(ct)`:
authentication succeeds exactly when the ciphertext was produced under the
same key, nonce and associated data, in which case the plaintext is
returned; otherwise the Poly1305 tag check fails and the library throws
its "invalid tag" error. -/
def xchachaDecrypt (key : ScryptKey) (nonce aad ct : Bytes) : Except String Bytes :=
  let hdr := sealHeader key nonce aad
  if ct.take hdr.length = hdr then Except.ok (ct.drop hdr.length)
  else Except.error "invalid tag"

/-- Round trip of the ideal AEAD. -/
theorem xchachaDecrypt_encrypt (key : ScryptKey) (nonce aad pt : Bytes) :
    xchachaDecrypt key nonce aad (xchachaEncrypt key nonce aad pt) = Except.ok pt := by
  simp [xchachaDecrypt, xchachaEncrypt, List.take_left, List.drop_left]

/-- A length-prefixed block determines its payload: if `(a.length :: a) ++ r`
and `(b.length :: b) ++ s` agree on a common prefix covering both blocks,
then `a = b`. -/
theorem lenPrefixed_inj {a b r s : Bytes}
    (h : (a.length :: a) ++ r <+: (b.length :: b) ++ s) : a = b := by
  rcases h with ⟨t, ht⟩
  simp only [List.cons_append] at ht
  have hlen : a.length = b.length := (List.cons.injEq _ _ _ _ ▸ ht).1
  have htail : a ++ r ++ t = b ++ s := (List.cons.injEq _ _ _ _ ▸ ht).2
  have hpre : a <+: b ++ s := ⟨r ++ t, by simpa [List.append_assoc] using htail⟩
  have := List.prefix_iff_eq_take.mp hpre
  rw [this, hlen, List.take_left]

/-- Authentication failure of the ideal AEAD under a different key: a
ciphertext sealed under `key` does not open under `key'` when the two
passwords differ (salt, cost, nonce and aad equal). -/
theorem xchachaDecrypt_wrong_pw {pw pw' : List Nat} {salt : Bytes} {n : Nat}
    (nonce aad pt : Bytes) (hne : pw' ≠ pw) :
    xchachaDecrypt ⟨pw', salt, n⟩ nonce aad
      (xchachaEncrypt ⟨pw, salt, n⟩ nonce aad pt) = Except.error "invalid tag" := by
  unfold xchachaDecrypt xchachaEncrypt
  simp only
  rw [if_neg]
  intro htake
  have hpre : sealHeader ⟨pw', salt, n⟩ nonce aad <+:
      sealHeader ⟨pw, salt, n⟩ nonce aad ++ pt := by
    rw [List.prefix_iff_eq_take]
    exact htake.symm
  apply hne
  unfold sealHeader at hpre
  simp only [List.append_assoc] at hpre
  exact lenPrefixed_inj hpre

/-!
## Bech32 envelopes and NIP-49 encryption (`src/lib/utils/nip49.ts`)
-/

/-- A bech32-encoded string, represented by its decoded components: the
human-readable part (`hrp`) and the payload bytes.  `@scure/base`'s
`bech32.encode prefix (bech32.toWords data)` and
`bech32.fromWords (bech32.decode s).words` are mutually inverse, so this
pair is a faithful representation of the encoded string. -/
structure Bech32Str where
  hrp : String
  data : Bytes
  deriving DecidableEq, Repr

/-- `encodeBech32(prefix, data)` from nip49.ts. -/
def encodeBech32 (hrp : String) (data : Bytes) : Bech32Str := ⟨hrp, data⟩

/-- `encrypt(privateKey, password, logn, ksb)` from nip49.ts.  The fresh
random `salt` (16 bytes) and `nonce` (24 bytes) drawn by `randomBytes` are
explicit parameters.  `Uint8Array.from([x])` truncates to a byte, hence
the `% 256`.  The scrypt cost is `n = 2 ** logn` (computed from the
untruncated JavaScript number). -/
def nip49Encrypt (privateKey : Bytes) (password : String) (logn : Nat) (ksb : Nat)
    (salt nonce : Bytes) : Bech32Str :=
  let n := 2 ^ logn
  let key := scryptKDF password salt n
  let aad := [ksb % 256]
  let ciphertext := xchachaEncrypt key nonce aad privateKey
  encodeBech32 "ncryptsec" ([0x02, logn % 256] ++ salt ++ nonce ++ aad ++ ciphertext)

/-- `decrypt(encryptedKey, password)` from nip49.ts.  Fallible: `throw`
becomes `Except.error` carrying the thrown message.  Out-of-range reads of
a `Uint8Array` yield `undefined` in JavaScript; `List.getD _ _ 0` stands in
for them — all inputs considered below are long enough for the default to
be irrelevant. -/
def nip49Decrypt (encryptedKey : Bech32Str) (password : String) : Except String Bytes :=
  if encryptedKey.hrp ≠ "ncryptsec" then
    Except.error ("Invalid prefix " ++ encryptedKey.hrp ++ ", expected 'ncryptsec'")
  else
    let bytes := encryptedKey.data
    let version := bytes.getD 0 0
    if version ≠ 0x02 then
      Except.error ("Invalid version " ++ toString version ++ ", expected 0x02")
    else
      let logn := bytes.getD 1 0
      let n := 2 ^ logn
      let salt := (bytes.drop 2).take 16
      let nonce := (bytes.drop 18).take 24
      let ksb := bytes.getD 42 0
      let aad := [ksb]
      let ciphertext := bytes.drop 43
      let key := scryptKDF password salt n
      xchachaDecrypt key nonce aad ciphertext

/-- `encryptMnemonicNip49(mnemonic, password, logn)` from nip49.ts: same
scheme, `ncryptmnem` prefix, fixed associated-data byte `0x00`.
`TextEncoder` is modelled at code-point level (mnemonics are ASCII). -/
def encryptMnemonicNip49 (mnemonic : String) (password : String) (logn : Nat)
    (salt nonce : Bytes) : Bech32Str :=
  let mnemonicBytes := strCodes mnemonic
  let n := 2 ^ logn
  let key := scryptKDF password salt n
  let aad := [0x00]
  let ciphertext := xchachaEncrypt key nonce aad mnemonicBytes
  encodeBech32 "ncryptmnem" ([0x02, logn % 256] ++ salt ++ nonce ++ aad ++ ciphertext)

/-- Code points back to a string (`TextDecoder`, at code-point level). -/
def codesToStr (bs : Bytes) : String := ⟨bs.map Char.ofNat⟩

/-- `decryptMnemonicNip49(encryptedMnemonic, password)` from nip49.ts. -/
def decryptMnemonicNip49 (encryptedMnemonic : Bech32Str) (password : String) :
    Except String String :=
  if encryptedMnemonic.hrp ≠ "ncryptmnem" then
    Except.error ("Invalid prefix " ++ encryptedMnemonic.hrp ++ ", expected 'ncryptmnem'")
  else
    let bytes := encryptedMnemonic.data
    let version := bytes.getD 0 0
    if version ≠ 0x02 then
      Except.error ("Invalid version " ++ toString version ++ ", expected 0x02")
    else
      let logn := bytes.getD 1 0
      let n := 2 ^ logn
      let salt := (bytes.drop 2).take 16
      let nonce := (bytes.drop 18).take 24
      let ksb := bytes.getD 42 0
      let aad := [ksb]
      let ciphertext := bytes.drop 43
      let key := scryptKDF password salt n
      (xchachaDecrypt key nonce aad ciphertext).map codesToStr

/-- Hex digit of a nibble, lowercase (as `bytesToHex` of `@noble/hashes`). -/
def hexDigit (n : Nat) : Char :=
  if n < 10 then Char.ofNat (48 + n) else Char.ofNat (87 + n)

/-- `bytesToHex` from `@noble/hashes/utils`: lowercase hex, two digits per
byte. -/
def bytesToHex (bs : Bytes) : String :=
  ⟨bs.foldr (fun b acc => hexDigit (b / 16 % 16) :: hexDigit (b % 16) :: acc) []⟩

/-- Numeric value of a hex digit (`0` on non-digits; all call sites below
pass valid lowercase hex, where `hexToBytes` of `@noble/hashes` never
throws). -/
def hexVal (c : Char) : Nat :=
  if 48 ≤ c.toNat ∧ c.toNat ≤ 57 then c.toNat - 48
  else if 97 ≤ c.toNat ∧ c.toNat ≤ 102 then c.toNat - 87
  else if 65 ≤ c.toNat ∧ c.toNat ≤ 70 then c.toNat - 55
  else 0

/-- `hexToBytes` from `@noble/hashes/utils` on valid hex input. -/
def hexToBytes (s : String) : Bytes :=
  let rec go : List Char → Bytes
    | c₁ :: c₂ :: rest => (16 * hexVal c₁ + hexVal c₂) :: go rest
    | _ => []
  go s.data

/-- `encryptPrivateKeyNip49(privateKeyHex, password, logn)` from nip49.ts. -/
def encryptPrivateKeyNip49 (privateKeyHex : String) (password : String) (logn : Nat)
    (salt nonce : Bytes) : Bech32Str :=
  nip49Encrypt (hexToBytes privateKeyHex) password logn 0x02 salt nonce

/-- `decryptPrivateKeyNip49(ncryptsec, password)` from nip49.ts. -/
def decryptPrivateKeyNip49 (ncryptsec : Bech32Str) (password : String) :
    Except String String :=
  (nip49Decrypt ncryptsec password).map bytesToHex

/-!
## Parsing the envelope layout `[version][logn][salt:16][nonce:24][aad][ct]`
-/

theorem getD_eq_getD_drop (l : Bytes) (n : Nat) : l.getD n 0 = (l.drop n).getD 0 0 := by
  rw [List.getD_eq_getElem?_getD, List.getD_eq_getElem?_getD, List.getElem?_drop]
  simp

/-- Field extraction from a well-formed envelope byte layout. -/
theorem envelope_parse (logn ksb : Nat) (salt nonce ct : Bytes)
    (hs : salt.length = 16) (hn : nonce.length = 24) :
    ([0x02, logn % 256] ++ salt ++ nonce ++ [ksb % 256] ++ ct).getD 0 0 = 0x02 ∧
    ([0x02, logn % 256] ++ salt ++ nonce ++ [ksb % 256] ++ ct).getD 1 0 = logn % 256 ∧
    (([0x02, logn % 256] ++ salt ++ nonce ++ [ksb % 256] ++ ct).drop 2).take 16 = salt ∧
    (([0x02, logn % 256] ++ salt ++ nonce ++ [ksb % 256] ++ ct).drop 18).take 24 = nonce ∧
    ([0x02, logn % 256] ++ salt ++ nonce ++ [ksb % 256] ++ ct).getD 42 0 = ksb % 256 ∧
    ([0x02, logn % 256] ++ salt ++ nonce ++ [ksb % 256] ++ ct).drop 43 = ct := by
  have hdata : [0x02, logn % 256] ++ salt ++ nonce ++ [ksb % 256] ++ ct =
      0x02 :: (logn % 256) :: (salt ++ (nonce ++ (ksb % 256 :: ct))) := by
    simp [List.append_assoc]
  rw [hdata]
  have hdrop2 : (0x02 :: (logn % 256) :: (salt ++ (nonce ++ (ksb % 256 :: ct)))).drop 2 =
      salt ++ (nonce ++ (ksb % 256 :: ct)) := rfl
  have hdrop18 : (0x02 :: (logn % 256) :: (salt ++ (nonce ++ (ksb % 256 :: ct)))).drop 18 =
      nonce ++ (ksb % 256 :: ct) := by
    show (salt ++ (nonce ++ (ksb % 256 :: ct))).drop 16 = nonce ++ (ksb % 256 :: ct)
    exact List.drop_left' hs
  have hdrop42 : (0x02 :: (logn % 256) :: (salt ++ (nonce ++ (ksb % 256 :: ct)))).drop 42 =
      ksb % 256 :: ct := by
    show (salt ++ (nonce ++ (ksb % 256 :: ct))).drop 40 = ksb % 256 :: ct
    rw [← List.append_assoc]
    exact List.drop_left' (by simp [hs, hn])
  refine ⟨rfl, rfl, ?_, ?_, ?_, ?_⟩
  · rw [hdrop2]; exact List.take_left' hs
  · rw [hdrop18]; exact List.take_left' hn
  · rw [getD_eq_getD_drop, hdrop42]; rfl
  · rw [show (43 : Nat) = 42 + 1 from rfl, ← List.drop_drop, hdrop42]; rfl

/-- Round trip of the NIP-49 private-key envelope, at the byte level:
decrypting with the same password recovers the plaintext, for every
plaintext, password, work-factor byte, and choice of random salt/nonce. -/
theorem nip49Decrypt_encrypt (b : Bytes) (pw : String) (logn ksb : Nat)
    (salt nonce : Bytes) (hs : salt.length = 16) (hn : nonce.length = 24)
    (hl : logn < 256) :
    nip49Decrypt (nip49Encrypt b pw logn ksb salt nonce) pw = Except.ok b := by
  obtain ⟨h0, h1, hsalt, hnonce, h42, h43⟩ :=
    envelope_parse logn ksb salt nonce (xchachaEncrypt (scryptKDF pw salt (2 ^ logn))
      nonce [ksb % 256] b) hs hn
  unfold nip49Decrypt nip49Encrypt encodeBech32
  simp only [h0, h1, hsalt, hnonce, h42, h43]
  rw [if_neg (by simp), if_neg (by simp), Nat.mod_eq_of_lt hl]
  exact xchachaDecrypt_encrypt _ _ _ _

/-- Wrong-password failure of the NIP-49 envelope, at the byte level: if
the NFKC normalisations of the two passwords differ, decryption fails with
the AEAD tag error. -/
theorem nip49Decrypt_encrypt_wrong_pw (b : Bytes) (pw pw' : String) (logn ksb : Nat)
    (salt nonce : Bytes) (hs : salt.length = 16) (hn : nonce.length = 24)
    (hl : logn < 256) (hne : normalizeNFKC pw' ≠ normalizeNFKC pw) :
    nip49Decrypt (nip49Encrypt b pw logn ksb salt nonce) pw' =
      Except.error "invalid tag" := by
  obtain ⟨h0, h1, hsalt, hnonce, h42, h43⟩ :=
    envelope_parse logn ksb salt nonce (xchachaEncrypt (scryptKDF pw salt (2 ^ logn))
      nonce [ksb % 256] b) hs hn
  unfold nip49Decrypt nip49Encrypt encodeBech32
  simp only [h0, h1, hsalt, hnonce, h42, h43]
  rw [if_neg (by simp), if_neg (by simp), Nat.mod_eq_of_lt hl]
  unfold scryptKDF
  apply xchachaDecrypt_wrong_pw
  intro hcodes
  apply hne
  have hchars : (normalizeNFKC pw').data = (normalizeNFKC pw).data := by
    apply List.map_injective_iff.mpr _ hcodes
    intro a b hab
    exact Char.ext (UInt32.toNat.inj hab)
  show String.mk (normalizeNFKC pw').data = String.mk (normalizeNFKC pw).data
  exact congrArg String.mk hchars

/-!
## Claims C1, C2, C4 — the encryption engine
-/

/-- A password that is a different string from `"correct"` but has the same
NFKC normalisation: its first character is the fullwidth Latin small letter
c (U+FF43), which NFKC decomposes to ASCII c. -/
def fullwidthCorrect : String := ⟨[Char.ofNat 0xFF43, 'o', 'r', 'r', 'e', 'c', 't']⟩

/-- Claim C1, counterexample: `fullwidthCorrect` is a password different
from "correct", yet decrypting the envelope produced by
`encrypt(b, "correct", logn)` with it succeeds and returns the plaintext,
because the code NFKC-normalises the password before key derivation
(`password.normalize('NFKC')` in nip49.ts line 48/102). -/
theorem C1_counterexample :
    fullwidthCorrect ≠ "correct" ∧
      nip49Decrypt
        (nip49Encrypt (List.replicate 32 7) "correct" 1 2
          (List.replicate 16 0) (List.replicate 24 0)) fullwidthCorrect =
        Except.ok (List.replicate 32 7) :=
  ⟨by decide, by rfl⟩

/-- Claim C1, amended: decrypting the envelope produced by
`encrypt(b, "correct", logn)` with any password whose NFKC normalisation
differs from that of "correct" fails with the AEAD authentication-tag
error and never returns a plaintext value.  (Passwords that are
NFKC-equivalent to "correct" — and only those — decrypt successfully.) -/
theorem C1_wrong_password_fails (b : Bytes) (pw : String) (logn : Nat)
    (salt nonce : Bytes) (hs : salt.length = 16) (hn : nonce.length = 24)
    (hl : logn < 256) (hne : normalizeNFKC pw ≠ normalizeNFKC "correct") :
    nip49Decrypt (nip49Encrypt b "correct" logn 2 salt nonce) pw =
      Except.error "invalid tag" :=
  nip49Decrypt_encrypt_wrong_pw b "correct" pw logn 2 salt nonce hs hn hl hne

/-- Claim C1, witness: the amended theorem applied at a concrete input. -/
theorem C1_wrong_password_fails_witness :
    nip49Decrypt
      (nip49Encrypt (List.replicate 32 7) "correct" 1 2
        (List.replicate 16 0) (List.replicate 24 0)) "wrong" =
      Except.error "invalid tag" :=
  C1_wrong_password_fails (List.replicate 32 7) "wrong" 1
    (List.replicate 16 0) (List.replicate 24 0) (by decide) (by decide) (by decide)
    (by decide)

/-- Claim C2: for every plaintext `b`, password `pw`, work-factor byte `w`,
key-security byte `ksb`, and every choice of the random 16-byte salt and
24-byte nonce, `decrypt(encrypt(b, pw, w), pw)` returns exactly `b`. -/
theorem C2_roundtrip (b : Bytes) (pw : String) (w ksb : Nat) (salt nonce : Bytes)
    (hs : salt.length = 16) (hn : nonce.length = 24) (hw : w < 256) :
    nip49Decrypt (nip49Encrypt b pw w ksb salt nonce) pw = Except.ok b :=
  nip49Decrypt_encrypt b pw w ksb salt nonce hs hn hw

/-- Claim C2, witness: the round trip at a concrete input. -/
theorem C2_roundtrip_witness :
    nip49Decrypt
      (nip49Encrypt [1, 2, 3] "pw" 16 2 (List.replicate 16 9) (List.replicate 24 8))
      "pw" = Except.ok [1, 2, 3] :=
  C2_roundtrip [1, 2, 3] "pw" 16 2 (List.replicate 16 9) (List.replicate 24 8)
    (by decide) (by decide) (by decide)

/-- Claim C4, counterexample: the three failure causes of `decrypt` are
observably distinct.  A prefix mismatch, a version mismatch and an AEAD
authentication failure each produce a different error value (whose message
`unlockWithPIN` propagates verbatim via `error.message`), so the caller
can distinguish which cause occurred — there is no single opaque
"incorrect password or corrupted data" condition. -/
theorem C4_counterexample :
    nip49Decrypt ⟨"npub", [0x02]⟩ "pw" =
        Except.error "Invalid prefix npub, expected 'ncryptsec'" ∧
      nip49Decrypt ⟨"ncryptsec", [0x01]⟩ "pw" =
        Except.error "Invalid version 1, expected 0x02" ∧
      nip49Decrypt
          (nip49Encrypt [7] "correct" 1 2 (List.replicate 16 0) (List.replicate 24 0))
          "wrong" = Except.error "invalid tag" ∧
      ("Invalid prefix npub, expected 'ncryptsec'" ≠
          "Invalid version 1, expected 0x02" ∧
        "Invalid prefix npub, expected 'ncryptsec'" ≠ "invalid tag" ∧
        "Invalid version 1, expected 0x02" ≠ "invalid tag") :=
  ⟨by rfl, by rfl, by rfl, by decide, by decide, by decide⟩

/-- Claim C4, amended: on each of the three failure causes — bech32-prefix
mismatch, version-byte mismatch, AEAD authentication failure — `decrypt`
fails and returns no (partial) plaintext; but the failure carries a
cause-specific message ("Invalid prefix …" / "Invalid version …" / the
AEAD tag error), which the caller can observe, rather than one opaque
condition. -/
theorem C4_decrypt_failure_modes (env : Bech32Str) (pw pw' : String)
    (b salt nonce : Bytes) (logn : Nat) (hs : salt.length = 16)
    (hn : nonce.length = 24) (hl : logn < 256)
    (hne : normalizeNFKC pw' ≠ normalizeNFKC pw) :
    (env.hrp ≠ "ncryptsec" →
        nip49Decrypt env pw =
          Except.error ("Invalid prefix " ++ env.hrp ++ ", expected 'ncryptsec'")) ∧
      (env.hrp = "ncryptsec" → env.data.getD 0 0 ≠ 0x02 →
        nip49Decrypt env pw =
          Except.error
            ("Invalid version " ++ toString (env.data.getD 0 0) ++ ", expected 0x02")) ∧
      nip49Decrypt (nip49Encrypt b pw logn 2 salt nonce) pw' =
        Except.error "invalid tag" := by
  refine ⟨?_, ?_, nip49Decrypt_encrypt_wrong_pw b pw pw' logn 2 salt nonce hs hn hl hne⟩
  · intro hhrp
    unfold nip49Decrypt
    rw [if_pos hhrp]
  · intro hhrp hver
    unfold nip49Decrypt
    rw [if_neg (by simp [hhrp]), if_pos hver]

/-- Claim C4, witness: the amended theorem applied at a concrete input. -/
theorem C4_decrypt_failure_modes_witness :
    nip49Decrypt ⟨"npub", [0x02]⟩ "pw" =
        Except.error "Invalid prefix npub, expected 'ncryptsec'" ∧
      nip49Decrypt
          (nip49Encrypt [7] "pw" 1 2 (List.replicate 16 0) (List.replicate 24 0))
          "other" = Except.error "invalid tag" := by
  have h := C4_decrypt_failure_modes ⟨"npub", [0x02]⟩ "pw" "other" [7]
    (List.replicate 16 0) (List.replicate 24 0) 1 (by decide) (by decide) (by decide)
    (by decide)
  exact ⟨h.1 (by decide), h.2.2⟩

/-!
## Mnemonic normalisation (`src/lib/services/crypto.ts`)

`validateMnemonic` and `mnemonicToPrivateKey` both start with
`mnemonic.trim().toLowerCase().replace(/\s+/g, ' ')`.  JavaScript string
primitives are modelled character-wise: `\s` by the ASCII whitespace
characters (space, tab, newline, carriage return, vertical tab, form
feed — the fragment relevant to mnemonic strings), `toLowerCase` by its
ASCII fragment.  The BIP-39 library functions (`bip39Validate`,
`mnemonicToSeedSync`, `HDKey` derivation) are third-party deterministic
functions of the normalised string; theorems quantify over them.
-/

/-- ASCII fragment of the JavaScript regexp class `\s` (space, tab, line
feed, carriage return, vertical tab, form feed). -/
def isJsWs (c : Char) : Bool :=
  c.toNat = 32 || c.toNat = 9 || c.toNat = 10 || c.toNat = 13 ||
    c.toNat = 11 || c.toNat = 12

/-- ASCII fragment of `String.prototype.toLowerCase`. -/
def toLowerAscii (c : Char) : Char :=
  if 65 ≤ c.toNat ∧ c.toNat ≤ 90 then Char.ofNat (c.toNat + 32) else c

/-- `value.trim()` on the character list. -/
def trimChars (l : List Char) : List Char :=
  ((l.dropWhile isJsWs).reverse.dropWhile isJsWs).reverse

/-- Trailing-whitespace trim (the second half of `trimChars`). -/
def rtrimWs (l : List Char) : List Char := (l.reverse.dropWhile isJsWs).reverse

/-- `value.replace(/\s+/g, ' ')` on the character list: every maximal
whitespace run becomes a single space (a whitespace character is dropped
while the run continues; the run's single output space is emitted at its
last character). -/
def collapseWs : List Char → List Char
  | [] => []
  | [c] => if isJsWs c then [' '] else [c]
  | c :: c₂ :: cs =>
    if isJsWs c then
      if isJsWs c₂ then collapseWs (c₂ :: cs)
      else ' ' :: collapseWs (c₂ :: cs)
    else c :: collapseWs (c₂ :: cs)

/-- `value.split(/\s+/)` on a character list, keeping only the (non-empty)
words: the word list of the string. -/
def splitWsChars : List Char → List (List Char)
  | [] => []
  | [c] => if isJsWs c then [] else [[c]]
  | c :: c₂ :: cs =>
    if isJsWs c then splitWsChars (c₂ :: cs)
    else if isJsWs c₂ then [c] :: splitWsChars (c₂ :: cs)
    else
      match splitWsChars (c₂ :: cs) with
      | w :: ws => (c :: w) :: ws
      | [] => [[c]]

/-- Words joined by single spaces. -/
def joinWords : List (List Char) → List Char
  | [] => []
  | [w] => w
  | w :: ws => w ++ ' ' :: joinWords ws

/-- The normalisation `mnemonic.trim().toLowerCase().replace(/\s+/g, ' ')`
shared by `validateMnemonic` and `mnemonicToPrivateKey` in crypto.ts. -/
def normalizeMnemonic (s : String) : String :=
  ⟨collapseWs ((trimChars s.data).map toLowerAscii)⟩

/-- The lower-cased word list of a mnemonic string: the part of the input
that survives normalisation.  Two strings differing only in letter case,
leading/trailing whitespace or extra internal whitespace have equal
`mnemonicWords`. -/
def mnemonicWords (s : String) : List (List Char) :=
  splitWsChars (s.data.map toLowerAscii)

/-- `isValidMnemonicFormat(value)` from types/security.ts: empty string is
rejected, otherwise the word count of `value.trim().toLowerCase().split(/\s+/)`
must be one of 12, 15, 18, 21, 24. -/
def isValidMnemonicFormat (value : String) : Bool :=
  if value = "" then false
  else
    let n := (splitWsChars ((trimChars value.data).map toLowerAscii)).length
    n = 12 || n = 15 || n = 18 || n = 21 || n = 24

/-- `validateMnemonic(mnemonic)` from crypto.ts, parametrised by the
third-party `bip39Validate` (a deterministic function of the normalised
string and the fixed English wordlist). -/
def validateMnemonic (bip39Validate : String → Bool) (mnemonic : String) : Bool :=
  let normalized := normalizeMnemonic mnemonic
  if !(isValidMnemonicFormat normalized) then false
  else bip39Validate normalized

/-- `mnemonicToPrivateKey(mnemonic, passphrase, accountIndex)` from
crypto.ts, parametrised by the third-party pipeline: `mnemonicToSeedSync`
(a deterministic function of normalised mnemonic and passphrase) and the
HD-key derivation of the path m/44h/1237h/accountIndexh/0/0 from the seed
(which may fail to produce a private key, in which case the code throws
"Failed to derive private key"). -/
def mnemonicToPrivateKey (mnemonicToSeed : String → String → Bytes)
    (deriveLeaf : Bytes → Nat → Option Bytes)
    (mnemonic passphrase : String) (accountIndex : Nat) : Except String String :=
  let normalizedMnemonic := normalizeMnemonic mnemonic
  let seed := mnemonicToSeed normalizedMnemonic passphrase
  match deriveLeaf seed accountIndex with
  | none => Except.error "Failed to derive private key"
  | some priv => Except.ok (bytesToHex priv)

/-!
## Normalisation factors through the word list
-/

theorem collapseWs_nil : collapseWs [] = [] := rfl

theorem collapseWs_cons_ws : ∀ (cs : List Char) {c : Char}, isJsWs c = true →
    collapseWs (c :: cs) = ' ' :: collapseWs (cs.dropWhile isJsWs)
  | [], c, h => by simp [collapseWs, h]
  | c₂ :: cs', c, h => by
    by_cases h₂ : isJsWs c₂ = true
    · have h1 : collapseWs (c :: c₂ :: cs') = collapseWs (c₂ :: cs') := by
        rw [collapseWs, if_pos h, if_pos h₂]
      rw [h1, collapseWs_cons_ws cs' h₂, List.dropWhile_cons, if_pos h₂]
    · have h₂' : isJsWs c₂ = false := by simpa using h₂
      have h1 : collapseWs (c :: c₂ :: cs') = ' ' :: collapseWs (c₂ :: cs') := by
        rw [collapseWs, if_pos h, if_neg (by simp [h₂'])]
      rw [h1, List.dropWhile_cons, if_neg (by simp [h₂'])]

theorem collapseWs_cons_not_ws {c : Char} (cs : List Char) (h : isJsWs c = false) :
    collapseWs (c :: cs) = c :: collapseWs cs := by
  cases cs with
  | nil => simp [collapseWs, h]
  | cons c₂ cs' =>
    show collapseWs (c :: c₂ :: cs') = _
    rw [collapseWs, if_neg (by simp [h])]

theorem splitWsChars_nil : splitWsChars [] = [] := rfl

theorem splitWsChars_cons_ws {c : Char} (cs : List Char) (h : isJsWs c = true) :
    splitWsChars (c :: cs) = splitWsChars cs := by
  cases cs with
  | nil => simp [splitWsChars, h]
  | cons c₂ cs' =>
    show splitWsChars (c :: c₂ :: cs') = _
    rw [splitWsChars, if_pos h]

theorem splitWsChars_cons_not_ws : ∀ (cs : List Char) {c : Char}, isJsWs c = false →
    splitWsChars (c :: cs) =
      (c :: cs.takeWhile (fun x => !(isJsWs x))) ::
        splitWsChars (cs.dropWhile (fun x => !(isJsWs x)))
  | [], c, h => by simp [splitWsChars, h]
  | c₂ :: cs', c, h => by
    by_cases h₂ : isJsWs c₂ = true
    · have h1 : splitWsChars (c :: c₂ :: cs') = [c] :: splitWsChars (c₂ :: cs') := by
        rw [splitWsChars, if_neg (by simp [h]), if_pos h₂]
      rw [h1, List.takeWhile_cons, if_neg (by simp [h₂]), List.dropWhile_cons,
        if_neg (by simp [h₂])]
    · have h₂' : isJsWs c₂ = false := by simpa using h₂
      have hrec := splitWsChars_cons_not_ws cs' h₂'
      have h1 : splitWsChars (c :: c₂ :: cs') =
          (match splitWsChars (c₂ :: cs') with
            | w :: ws => (c :: w) :: ws
            | [] => [[c]]) := by
        rw [splitWsChars, if_neg (by simp [h]), if_neg (by simp [h₂'])]
      rw [h1, hrec, List.takeWhile_cons, if_pos (by simp [h₂']), List.dropWhile_cons,
        if_pos (by simp [h₂'])]

/-- `collapseWs` passes a whitespace-free prefix through unchanged. -/
theorem collapseWs_append_of_wsFree (w b : List Char)
    (hw : ∀ x ∈ w, isJsWs x = false) :
    collapseWs (w ++ b) = w ++ collapseWs b := by
  induction w with
  | nil => simp
  | cons x w' ih =>
    have hx : isJsWs x = false := hw x (List.mem_cons_self x w')
    rw [List.cons_append, collapseWs_cons_not_ws _ hx,
      ih (fun y hy => hw y (List.mem_cons_of_mem x hy)), List.cons_append]

/-- `dropWhile` leaves a list whose head fails the predicate unchanged. -/
theorem dropWhile_eq_self_of_head {p : Char → Bool} :
    ∀ {l : List Char}, (∀ x ∈ l.take 1, p x = false) → l.dropWhile p = l
  | [], _ => rfl
  | c :: cs, h => by
    rw [List.dropWhile_cons, if_neg (by simp [h c (by simp)])]

/-- Splitting skips leading whitespace. -/
theorem splitWsChars_dropWhile (l : List Char) :
    splitWsChars (l.dropWhile isJsWs) = splitWsChars l := by
  induction l with
  | nil => rfl
  | cons c cs ih =>
    by_cases h : isJsWs c = true
    · rw [List.dropWhile_cons, if_pos h, splitWsChars_cons_ws cs h, ih]
    · rw [List.dropWhile_cons, if_neg (by simp [Bool.of_not_eq_true h])]

/-- A list of whitespace splits to no words. -/
theorem splitWsChars_eq_nil_of_all_ws (l : List Char)
    (h : ∀ x ∈ l, isJsWs x = true) : splitWsChars l = [] := by
  rw [← splitWsChars_dropWhile, List.dropWhile_eq_nil_iff.mpr (by exact h),
    splitWsChars_nil]

/-- `rtrimWs` leaves a whitespace-free list unchanged. -/
theorem rtrimWs_of_wsFree (l : List Char) (h : ∀ x ∈ l, isJsWs x = false) :
    rtrimWs l = l := by
  unfold rtrimWs
  rw [dropWhile_eq_self_of_head, List.reverse_reverse]
  intro x hx
  exact h x (List.mem_reverse.mp (List.mem_of_mem_take hx))

/-- `rtrimWs` over an append whose right part does not trim to nothing. -/
theorem rtrimWs_append (a b : List Char) (hb : rtrimWs b ≠ []) :
    rtrimWs (a ++ b) = a ++ rtrimWs b := by
  unfold rtrimWs at *
  rw [List.reverse_append, List.dropWhile_append]
  have hne : ¬(b.reverse.dropWhile isJsWs).isEmpty = true := by
    intro hempty
    exact hb (by simp [List.isEmpty_iff.mp hempty])
  rw [if_neg hne, List.reverse_append, List.reverse_reverse]

/-- `rtrimWs` of a list with a non-whitespace head is non-empty. -/
theorem rtrimWs_ne_nil_of_head {c : Char} (cs : List Char) (h : isJsWs c = false) :
    rtrimWs (c :: cs) ≠ [] := by
  unfold rtrimWs
  intro hnil
  have : (c :: cs).reverse.dropWhile isJsWs = [] := by
    have := congrArg List.reverse hnil
    simpa using this
  have hall := List.dropWhile_eq_nil_iff.mp this
  have := hall c (by simp)
  rw [h] at this
  exact Bool.false_ne_true this

/-- `rtrimWs` discards an all-whitespace suffix after a whitespace-free
prefix. -/
theorem rtrimWs_wsFree_append_ws (w r : List Char)
    (hw : ∀ x ∈ w, isJsWs x = false) (hr : ∀ x ∈ r, isJsWs x = true) :
    rtrimWs (w ++ r) = w := by
  unfold rtrimWs
  have hrev : ∀ x ∈ r.reverse, isJsWs x = true := fun x hx => hr x (List.mem_reverse.mp hx)
  rw [List.reverse_append, List.dropWhile_append,
    if_pos (by simp [List.dropWhile_eq_nil_iff.mpr hrev]),
    dropWhile_eq_self_of_head (fun x hx => hw x (List.mem_reverse.mp (List.mem_of_mem_take hx))),
    List.reverse_reverse]

/-- Collapsing a whitespace run followed by an untouched tail. -/
theorem collapseWs_ws_append (a b : List Char) (ha : ∀ x ∈ a, isJsWs x = true)
    (hane : a ≠ []) (hb : b.dropWhile isJsWs = b) :
    collapseWs (a ++ b) = ' ' :: collapseWs b := by
  match a with
  | [] => exact absurd rfl hane
  | x :: a' =>
    rw [List.cons_append, collapseWs_cons_ws _ (ha x (by simp)),
      List.dropWhile_append, if_pos (by
        simp [List.dropWhile_eq_nil_iff.mpr (fun y hy => ha y (List.mem_cons_of_mem x hy))]),
      hb]

/-- Everything in a `takeWhile` satisfies the predicate. -/
theorem mem_takeWhile_sat {p : Char → Bool} {l : List Char} {x : Char}
    (hx : x ∈ l.takeWhile p) : p x = true :=
  List.mem_takeWhile_imp hx

/-- The head of a non-empty `dropWhile` result fails the predicate. -/
theorem head_dropWhile_false {p : Char → Bool} :
    ∀ {l : List Char} {d : Char} {t : List Char}, l.dropWhile p = d :: t → p d = false := by
  intro l
  induction l with
  | nil => intro d t h; cases h
  | cons x xs ih =>
    intro d t h
    rw [List.dropWhile_cons] at h
    by_cases hx : p x = true
    · rw [if_pos hx] at h; exact ih h
    · rw [if_neg hx] at h
      cases h
      simpa using hx

/-- `rtrimWs l` is a prefix of `l`. -/
theorem rtrimWs_prefix (l : List Char) : rtrimWs l <+: l := by
  unfold rtrimWs
  have hsuf : l.reverse.dropWhile isJsWs <:+ l.reverse := List.dropWhile_suffix _
  have := List.reverse_prefix.mpr hsuf
  simpa using this

theorem joinWords_nil : joinWords [] = [] := rfl

theorem joinWords_single (w : List Char) : joinWords [w] = w := rfl

theorem joinWords_cons₂ (a b : List Char) (rest : List (List Char)) :
    joinWords (a :: b :: rest) = a ++ ' ' :: joinWords (b :: rest) := rfl

/-- Main factoring lemma (by fuel induction): trimming then collapsing
whitespace produces exactly the words joined by single spaces. -/
theorem collapse_trim_eq_join : ∀ (n : Nat) (m : List Char), m.length ≤ n →
    collapseWs (trimChars m) = joinWords (splitWsChars m)
  | n, [], _ => by
    simp [trimChars, collapseWs_nil, splitWsChars_nil, joinWords]
  | 0, c :: cs, hm => by simp at hm
  | Nat.succ n, c :: cs, hm => by
    by_cases hws0 : isJsWs c = true
    · -- leading whitespace is dropped by both sides
      have h1 : trimChars (c :: cs) = trimChars cs := by
        unfold trimChars
        rw [List.dropWhile_cons, if_pos hws0]
      rw [h1, splitWsChars_cons_ws cs hws0]
      exact collapse_trim_eq_join n cs (Nat.le_of_succ_le_succ hm)
    · have hws' : isJsWs c = false := by simpa using hws0
      have hid : (c :: cs).dropWhile isJsWs = c :: cs := by
        rw [List.dropWhile_cons, if_neg (by simp [hws'])]
      have htrim : trimChars (c :: cs) = rtrimWs (c :: cs) := by
        unfold trimChars rtrimWs
        rw [hid]
      have hcs : cs.takeWhile (fun x => !(isJsWs x)) ++ cs.dropWhile (fun x => !(isJsWs x))
          = cs := List.takeWhile_append_dropWhile _ _
      have hwfree : ∀ x ∈ c :: cs.takeWhile (fun x => !(isJsWs x)), isJsWs x = false := by
        intro x hx
        rcases List.mem_cons.mp hx with hx | hx
        · exact hx ▸ hws'
        · simpa using mem_takeWhile_sat hx
      rw [htrim, splitWsChars_cons_not_ws cs hws']
      rcases hrcase : cs.dropWhile (fun x => !(isJsWs x)) with _ | ⟨d, t⟩
      · -- no internal whitespace: the whole input is one word
        have hw_eq : cs.takeWhile (fun x => !(isJsWs x)) = cs := by
          rw [hrcase, List.append_nil] at hcs
          exact hcs
        rw [splitWsChars_nil, hw_eq]
        rw [hw_eq] at hwfree
        rw [rtrimWs_of_wsFree _ hwfree]
        show collapseWs (c :: cs) = joinWords [c :: cs]
        rw [joinWords_single]
        simpa [collapseWs_nil] using collapseWs_append_of_wsFree (c :: cs) [] hwfree
      · have hd : isJsWs d = true := by
          simpa using head_dropWhile_false (p := fun x => !(isJsWs x)) hrcase
        have hsplit : c :: cs = (c :: cs.takeWhile (fun x => !(isJsWs x))) ++ (d :: t) := by
          conv_lhs => rw [← hcs, hrcase]
          rfl
        rw [hsplit]
        -- split the rest into its whitespace run and what follows
        have hrun : ∀ x ∈ (d :: t).takeWhile isJsWs, isJsWs x = true :=
          fun x hx => mem_takeWhile_sat hx
        have hrunne : (d :: t).takeWhile isJsWs ≠ [] := by
          rw [List.takeWhile_cons, if_pos hd]
          simp
        have hdecomp : (d :: t).takeWhile isJsWs ++ (d :: t).dropWhile isJsWs = d :: t :=
          List.takeWhile_append_dropWhile _ _
        rcases hscase : (d :: t).dropWhile isJsWs with _ | ⟨e, t'⟩
        · -- the rest is all whitespace: it is trimmed away entirely
          have hallws : ∀ x ∈ (d :: t), isJsWs x = true := by
            have := List.dropWhile_eq_nil_iff.mp hscase
            simpa using this
          rw [rtrimWs_wsFree_append_ws _ _ hwfree hallws,
            splitWsChars_eq_nil_of_all_ws _ hallws]
          show collapseWs (c :: cs.takeWhile (fun x => !(isJsWs x))) =
            joinWords [c :: cs.takeWhile (fun x => !(isJsWs x))]
          rw [joinWords_single]
          simpa [collapseWs_nil] using
            collapseWs_append_of_wsFree (c :: cs.takeWhile (fun x => !(isJsWs x))) [] hwfree
        · have he : isJsWs e = false := head_dropWhile_false hscase
          have hrtne : rtrimWs (e :: t') ≠ [] := rtrimWs_ne_nil_of_head t' he
          -- the trimmed tail keeps its non-whitespace head
          have hrt_head : ∃ u, rtrimWs (e :: t') = e :: u := by
            rcases hx : rtrimWs (e :: t') with _ | ⟨y, u⟩
            · exact absurd hx hrtne
            · refine ⟨u, ?_⟩
              rcases rtrimWs_prefix (e :: t') with ⟨k, hk⟩
              rw [hx, List.cons_append] at hk
              injection hk with h1 _
              rw [h1]
          have hrt_drop : (rtrimWs (e :: t')).dropWhile isJsWs = rtrimWs (e :: t') := by
            rcases hrt_head with ⟨u, hu⟩
            rw [hu]
            refine dropWhile_eq_self_of_head ?_
            intro x hx
            simp at hx
            rw [hx]
            exact he
          -- rtrimWs distributes over the three segments
          have hr1 : rtrimWs (d :: t) =
              (d :: t).takeWhile isJsWs ++ rtrimWs (e :: t') := by
            conv_lhs => rw [← hdecomp, hscase]
            exact rtrimWs_append _ _ hrtne
          have hr1ne : rtrimWs (d :: t) ≠ [] := by
            rw [hr1]
            intro hnil
            exact hrtne (List.append_eq_nil.mp hnil).2
          have hr2 : rtrimWs ((c :: cs.takeWhile (fun x => !(isJsWs x))) ++ (d :: t)) =
              (c :: cs.takeWhile (fun x => !(isJsWs x))) ++ rtrimWs (d :: t) :=
            rtrimWs_append _ _ hr1ne
          rw [hr2, collapseWs_append_of_wsFree _ _ hwfree, hr1,
            collapseWs_ws_append _ _ hrun hrunne hrt_drop]
          -- the trimmed tail is itself a trimmed list with non-ws head
          have htrim' : trimChars (e :: t') = rtrimWs (e :: t') := by
            unfold trimChars rtrimWs
            have : (e :: t').dropWhile isJsWs = e :: t' := by
              rw [List.dropWhile_cons, if_neg (by simp [he])]
            rw [this]
          have hlen : (e :: t').length ≤ n := by
            have h1 : (e :: t').length ≤ (d :: t).length := by
              rw [← hscase]
              exact (List.dropWhile_sublist _).length_le
            have h2 : (d :: t).length ≤ cs.length := by
              rw [← hrcase]
              exact (List.dropWhile_sublist _).length_le
            have h3 : cs.length ≤ n := Nat.le_of_succ_le_succ hm
            omega
          have hih := collapse_trim_eq_join n (e :: t') hlen
          rw [htrim'] at hih
          rw [hih]
          -- both sides now join the same word list
          have hsr : splitWsChars (d :: t) = splitWsChars (e :: t') := by
            rw [← splitWsChars_dropWhile (d :: t), hscase]
          rw [hsr, splitWsChars_cons_not_ws t' he, joinWords_cons₂]

/-!
## Claim C9 — normalisation invariance of validation and derivation
-/

theorem toNat_ofNat_small {n : Nat} (h1 : n < 55296) : (Char.ofNat n).toNat = n := by
  unfold Char.ofNat
  rw [dif_pos (Or.inl (by omega : n < 0xd800))]
  simp [Char.ofNatAux, Char.toNat, UInt32.toNat, BitVec.toNat_ofNatLt]

/-- Lower-casing does not change whether a character is whitespace. -/
theorem isJsWs_toLowerAscii (c : Char) : isJsWs (toLowerAscii c) = isJsWs c := by
  unfold toLowerAscii
  split
  · rename_i h
    have hv : (Char.ofNat (c.toNat + 32)).toNat = c.toNat + 32 :=
      toNat_ofNat_small (by omega)
    unfold isJsWs
    rw [hv]
    have hL : (decide (c.toNat + 32 = 32) || decide (c.toNat + 32 = 9) ||
        decide (c.toNat + 32 = 10) || decide (c.toNat + 32 = 13) ||
        decide (c.toNat + 32 = 11) || decide (c.toNat + 32 = 12)) = false := by
      simp only [Bool.or_eq_false_iff, decide_eq_false_iff_not]
      omega
    have hR : (decide (c.toNat = 32) || decide (c.toNat = 9) ||
        decide (c.toNat = 10) || decide (c.toNat = 13) ||
        decide (c.toNat = 11) || decide (c.toNat = 12)) = false := by
      simp only [Bool.or_eq_false_iff, decide_eq_false_iff_not]
      omega
    rw [hL, hR]
  · rfl

/-- `dropWhile isJsWs` commutes with lower-casing. -/
theorem dropWhile_map_toLower (l : List Char) :
    (l.map toLowerAscii).dropWhile isJsWs = (l.dropWhile isJsWs).map toLowerAscii := by
  have hcomp : isJsWs ∘ toLowerAscii = isJsWs := funext isJsWs_toLowerAscii
  rw [List.dropWhile_map, hcomp]

/-- `trimChars` commutes with lower-casing. -/
theorem trimChars_map_toLower (l : List Char) :
    trimChars (l.map toLowerAscii) = (trimChars l).map toLowerAscii := by
  unfold trimChars
  rw [dropWhile_map_toLower, ← List.map_reverse, dropWhile_map_toLower, List.map_reverse]

/-- The normalisation used by crypto.ts equals the lower-cased word list
joined by single spaces: only the words (and their order) survive. -/
theorem normalizeMnemonic_factor (s : String) :
    normalizeMnemonic s = ⟨joinWords (mnemonicWords s)⟩ := by
  unfold normalizeMnemonic mnemonicWords
  congr 1
  rw [← trimChars_map_toLower]
  exact collapse_trim_eq_join (s.data.map toLowerAscii).length _ le_rfl

/-- Claim C9: for any two mnemonic strings that differ only in letter case,
leading/trailing whitespace, or extra internal whitespace (equal word
lists), `validateMnemonic` returns the same boolean and
`mnemonicToPrivateKey` (with equal passphrase and account index) returns
the identical result — for every choice of the third-party BIP-39
validation and derivation functions. -/
theorem C9_normalization_invariance
    (bip39Validate : String → Bool) (mnemonicToSeed : String → String → Bytes)
    (deriveLeaf : Bytes → Nat → Option Bytes) (a b passphrase : String)
    (accountIndex : Nat) (h : mnemonicWords a = mnemonicWords b) :
    validateMnemonic bip39Validate a = validateMnemonic bip39Validate b ∧
      mnemonicToPrivateKey mnemonicToSeed deriveLeaf a passphrase accountIndex =
        mnemonicToPrivateKey mnemonicToSeed deriveLeaf b passphrase accountIndex := by
  have hnorm : normalizeMnemonic a = normalizeMnemonic b := by
    rw [normalizeMnemonic_factor, normalizeMnemonic_factor, h]
  constructor
  · unfold validateMnemonic
    rw [hnorm]
  · unfold mnemonicToPrivateKey
    rw [hnorm]

/-- Claim C9, witness: variants differing in case and whitespace, with
concrete stand-ins for the third-party functions. -/
theorem C9_normalization_invariance_witness :
    validateMnemonic (fun s => s == "abandon ability able") "  Abandon   ABILITY able " =
        validateMnemonic (fun s => s == "abandon ability able") "abandon ability able" ∧
      mnemonicToPrivateKey (fun m p => [m.length, p.length])
          (fun seed i => some (i :: seed)) "  Abandon   ABILITY able " "x" 0 =
        mnemonicToPrivateKey (fun m p => [m.length, p.length])
          (fun seed i => some (i :: seed)) "abandon ability able" "x" 0 :=
  C9_normalization_invariance (fun s => s == "abandon ability able")
    (fun m p => [m.length, p.length]) (fun seed i => some (i :: seed))
    "  Abandon   ABILITY able " "abandon ability able" "x" 0 (by decide)

/-!
## PIN verification hashing (`src/lib/services/crypto.ts`)

`hashPinForVerification` derives a pbkdf2-sha256 digest of the
NFKC-normalised PIN under a fresh salt; `verifyPin` recomputes it with the
stored salt/iteration count and compares in constant time.  pbkdf2 is a
third-party primitive, modelled ideally: the stored verifier is determined
by (and determines) the normalised PIN, so verification succeeds exactly
when the normalised PINs agree — the ideal collision-free hash.
-/

/-- Ideal model of the stored `PINHash {hash, salt, algorithm, iterations}`:
represented by the normalised PIN that produced it. -/
structure PINHash where
  pinNorm : String
  deriving DecidableEq, Repr

/-- `hashPinForVerification(pin)` from crypto.ts. -/
def hashPinForVerification (pin : String) : PINHash := ⟨normalizeNFKC pin⟩

/-- `verifyPin(pin, storedHash)` from crypto.ts: recompute and compare in
constant time. -/
def verifyPin (pin : String) (storedHash : PINHash) : Bool :=
  normalizeNFKC pin == storedHash.pinNorm

/-!
## Security record and constants
(`src/lib/types/security.ts`, `src/lib/services/secureStorage.ts`)
-/

/-- The authentication method of `SecurityPreferences.authMethod`. -/
inductive AuthMethod
  | none
  | pin
  | webauthn
  deriving DecidableEq, Repr

/-- `PIN_RATE_LIMIT` from types/security.ts. -/
structure PINRateLimit where
  maxAttempts : Nat
  lockoutDuration : Nat
  resetAfter : Nat
  deriving DecidableEq, Repr

def PIN_RATE_LIMIT : PINRateLimit :=
  { maxAttempts := 5, lockoutDuration := 5 * 60 * 1000, resetAfter := 60 * 60 * 1000 }

/-- `UNLOCK_SESSION_DURATION` from types/security.ts (5 minutes in ms). -/
def UNLOCK_SESSION_DURATION : Nat := 5 * 60 * 1000

def NIP49_DEFAULT_LOGN : Nat := 16

def NIP49_FAST_LOGN : Nat := 1

/-- `isValidPIN(value, expectedLength)` from types/security.ts: with an
expected length, the value must be exactly that many decimal digits;
without one, 4 to 8 digits.  (`\d` matches the ASCII digits here.) -/
def isValidPIN (value : String) (expectedLength : Option Nat) : Bool :=
  if value = "" then false
  else
    let digits := value.data.all (fun c => 48 ≤ c.toNat && c.toNat ≤ 57)
    match expectedLength with
    | some len => value.data.length = len && digits
    | Option.none => 4 ≤ value.data.length && value.data.length ≤ 8 && digits

/-- `SecurityPreferences` from types/security.ts. -/
structure SecurityPreferences where
  authMethod : AuthMethod
  pinLength : Nat
  lastUnlockAt : Option Nat
  failedPinAttempts : Nat
  lastFailedAttemptAt : Option Nat
  autoLockEnabled : Bool
  deriving DecidableEq, Repr

/-- `StoredCredential` of the platform-authenticator bridge (opaque local
bookkeeping; its fields never influence the modelled control flow). -/
structure StoredCredential where
  credentialId : String
  publicKey : String
  counter : Nat
  registeredAt : Nat
  deriving DecidableEq, Repr

/-- `WebAuthnEncryptionKey` from types/security.ts: the random secret used
as the NIP-49 password for the WebAuthn storage mode. -/
structure WebAuthnEncryptionKey where
  key : String
  createdAt : Nat
  deriving DecidableEq, Repr

/-- The persisted `SecureStorageSchema` (one security record per
installation).  Encrypted key and mnemonic are NIP-49 envelopes. -/
structure Storage where
  encryptedKey : Option Bech32Str
  encryptedMnemonic : Option Bech32Str
  pinHash : Option PINHash
  publicKeyHex : Option String
  npub : Option String
  webauthnCredential : Option StoredCredential
  webauthnEncryptionKey : Option WebAuthnEncryptionKey
  preferences : SecurityPreferences
  deriving DecidableEq, Repr

/-- Observable effects of one state-machine operation, in order: reads and
writes of the secure storage, and KDF work (pbkdf2 PIN verification,
scrypt envelope decryption). -/
inductive Event
  | read
  | write
  | kdfVerify
  | kdfDecrypt
  deriving DecidableEq, Repr

/-- `recordFailedPinAttempt()` from secureStorage.ts: increment the counter
and stamp the time (a `readStorage` plus a read-modify-write
`updateStorage`). -/
def recordFailedPinAttemptStorage (st : Storage) (now : Nat) : Storage :=
  { st with preferences :=
      { st.preferences with
          failedPinAttempts := st.preferences.failedPinAttempts + 1,
          lastFailedAttemptAt := some now } }

/-- `resetFailedPinAttempts()` from secureStorage.ts. -/
def resetFailedPinAttemptsStorage (st : Storage) : Storage :=
  { st with preferences :=
      { st.preferences with failedPinAttempts := 0, lastFailedAttemptAt := Option.none } }

/-- `recordUnlock()` from secureStorage.ts: stamp `lastUnlockAt` and clear
the failure counters. -/
def recordUnlockStorage (st : Storage) (now : Nat) : Storage :=
  { st with preferences :=
      { st.preferences with
          lastUnlockAt := some now,
          failedPinAttempts := 0,
          lastFailedAttemptAt := Option.none } }

/-- `storeEncryptedKey(encryptedKey, publicKeyHex)` from secureStorage.ts
(the optional `npub` argument is not passed by the state machine, so it is
stored as null). -/
def storeEncryptedKeyStorage (st : Storage) (enc : Bech32Str) (pub : String) : Storage :=
  { st with encryptedKey := some enc, publicKeyHex := some pub, npub := Option.none }

/-- `storePinHash(pinHash, pinLength)` from secureStorage.ts. -/
def storePinHashStorage (st : Storage) (h : PINHash) (pinLength : Nat) : Storage :=
  { st with
    pinHash := some h,
    preferences := { st.preferences with
      authMethod := AuthMethod.pin,
      pinLength := pinLength } }

/-- `storeEncryptedMnemonic(encryptedMnemonic)` from secureStorage.ts. -/
def storeEncryptedMnemonicStorage (st : Storage) (em : Bech32Str) : Storage :=
  { st with encryptedMnemonic := some em }

/-!
## The security state machine (`src/lib/stores/relaySync.svelte.ts`)

`Date.now()` is an explicit `now` parameter (one reading per operation);
the fresh salts and nonces of `randomBytes` are explicit parameters.
JavaScript truthiness of a `number | null` field (`if (lastAttemptAt)`,
`if (securityState.unlockExpiresAt && …)`) is `jsTruthyOptNat`: null and 0
are falsy.
-/

def jsTruthyOptNat : Option Nat → Bool
  | Option.none => false
  | some n => n ≠ 0

/-- The decrypted key of an unlock session.  The source object also
carries `publicKeyHex`, `nsec` and `npub` — deterministic projections of
`privateKeyHex` through secp256k1 and bech32 (`privateKeyToKeyPair` in
crypto.ts); no claim treated here observes them, so only the private key
and the optional mnemonic are represented. -/
structure DecryptedKey where
  privateKeyHex : String
  mnemonic : Option String
  deriving DecidableEq, Repr

/-- `privateKeyToKeyPair(privateKeyHex)` from crypto.ts, restricted to the
represented fields. -/
def privateKeyToKeyPair (privateKeyHex : String) : DecryptedKey :=
  { privateKeyHex := privateKeyHex, mnemonic := Option.none }

/-- The reactive `securityState` object plus the module-level
`currentUnlockedKey` of relaySync.svelte.ts.  (`unlockTimeoutHandle`, the
auto-lock timer, is represented by the lazy expiry check of
`getUnlockedKey`; the timer only ever calls `lockSession`.) -/
structure SecurityState where
  authMethod : AuthMethod
  pinLength : Nat
  webauthnAvailable : Bool
  hasStoredKey : Bool
  isUnlocked : Bool
  unlockExpiresAt : Option Nat
  autoLockEnabled : Bool
  currentUnlockedKey : Option DecryptedKey
  deriving DecidableEq, Repr

/-- `UnlockResult` of relaySync.svelte.ts. -/
structure UnlockResult where
  success : Bool
  error : Option String
  key : Option DecryptedKey
  deriving DecidableEq, Repr

/-- `setUnlockedState(key)` (relaySync.svelte.ts line 544): used after
setup operations; sets an expiry unconditionally. -/
def setUnlockedState (s : SecurityState) (key : DecryptedKey) (now : Nat) : SecurityState :=
  { s with
    currentUnlockedKey := some key,
    isUnlocked := true,
    unlockExpiresAt := some (now + UNLOCK_SESSION_DURATION) }

/-- `startUnlockSession(key)` (line 1073): used after unlock operations;
sets an expiry (and schedules the auto-lock timer) only when
`autoLockEnabled` is on. -/
def startUnlockSession (s : SecurityState) (key : DecryptedKey) (now : Nat) :
    SecurityState :=
  if s.autoLockEnabled then
    { s with
      currentUnlockedKey := some key,
      isUnlocked := true,
      unlockExpiresAt := some (now + UNLOCK_SESSION_DURATION) }
  else
    { s with
      currentUnlockedKey := some key,
      isUnlocked := true,
      unlockExpiresAt := Option.none }

/-- `lockSession()` (line 1101): clears the in-memory key and the session
flags. -/
def lockSession (s : SecurityState) : SecurityState :=
  { s with
    currentUnlockedKey := Option.none,
    isUnlocked := false,
    unlockExpiresAt := Option.none }

/-- `getUnlockedKey()` (line 1121): lazy expiry check on access. -/
def getUnlockedKey (s : SecurityState) (now : Nat) :
    Option DecryptedKey × SecurityState :=
  if !s.isUnlocked then (Option.none, s)
  else if jsTruthyOptNat s.unlockExpiresAt && decide (s.unlockExpiresAt.getD 0 < now) then
    (Option.none, lockSession s)
  else (s.currentUnlockedKey, s)

/-- Result of `checkRateLimit()`. -/
structure RateLimitCheck where
  limited : Bool
  waitTime : Option Nat
  deriving DecidableEq, Repr

/-- `checkRateLimit()` (line 877).  `getFailedPinAttempts` is one storage
read; an expired lockout resets the counters (a read-modify-write). -/
def checkRateLimit (st : Storage) (now : Nat) : RateLimitCheck × Storage × List Event :=
  let count := st.preferences.failedPinAttempts
  let lastAttemptAt := st.preferences.lastFailedAttemptAt
  if count < PIN_RATE_LIMIT.maxAttempts then
    (⟨false, Option.none⟩, st, [Event.read])
  else if jsTruthyOptNat lastAttemptAt then
    let timeSinceLastAttempt := now - lastAttemptAt.getD 0
    if timeSinceLastAttempt < PIN_RATE_LIMIT.lockoutDuration then
      (⟨true, some (PIN_RATE_LIMIT.lockoutDuration - timeSinceLastAttempt)⟩, st,
        [Event.read])
    else
      (⟨false, Option.none⟩, resetFailedPinAttemptsStorage st,
        [Event.read, Event.read, Event.write])
  else (⟨false, Option.none⟩, st, [Event.read])

/-- `unlockWithPIN(pin)` (line 939).  Returns the result together with the
new in-memory state, the new storage, and the ordered effect trace.
`Math.ceil(x / 1000)` on naturals is `(x + 999) / 1000`. -/
def unlockWithPIN (state : SecurityState) (st : Storage) (now : Nat) (pin : String) :
    UnlockResult × SecurityState × Storage × List Event :=
  if state.authMethod ≠ AuthMethod.pin then
    (⟨false, some "PIN authentication is not set up", Option.none⟩, state, st, [])
  else
    match checkRateLimit st now with
    | (rateLimit, st1, ev1) =>
      if rateLimit.limited then
        let seconds := (rateLimit.waitTime.getD 0 + 999) / 1000
        (⟨false, some ("Too many failed attempts. Try again in " ++ toString seconds ++
            " seconds."), Option.none⟩, state, st1, ev1)
      else if !(isValidPIN pin (some state.pinLength)) then
        (⟨false, some ("PIN must be " ++ toString state.pinLength ++ " digits"),
          Option.none⟩, state, st1, ev1)
      else
        -- getPinHash: one storage read; `if (storedHash && !verifyPin(...))`
        let evHash := match st1.pinHash with
          | some _ => [Event.read, Event.kdfVerify]
          | Option.none => [Event.read]
        let hashMismatch := match st1.pinHash with
          | some storedHash => !(verifyPin pin storedHash)
          | Option.none => false
        if hashMismatch then
          (⟨false, some "Incorrect PIN", Option.none⟩, state,
            recordFailedPinAttemptStorage st1 now,
            ev1 ++ evHash ++ [Event.read, Event.read, Event.write])
        else
          -- getEncryptedKey: one storage read
          match st1.encryptedKey with
          | Option.none =>
            (⟨false, some "No encrypted key found", Option.none⟩, state, st1,
              ev1 ++ evHash ++ [Event.read])
          | some encryptedKey =>
            match decryptPrivateKeyNip49 encryptedKey pin with
            | Except.error msg =>
              -- the thrown error is caught: record a failed attempt,
              -- return error.message
              (⟨false, some msg, Option.none⟩, state,
                recordFailedPinAttemptStorage st1 now,
                ev1 ++ evHash ++ [Event.read, Event.kdfDecrypt,
                  Event.read, Event.read, Event.write])
            | Except.ok privateKeyHex =>
              let decryptedKey0 := privateKeyToKeyPair privateKeyHex
              -- getEncryptedMnemonic: one read; a failed mnemonic decrypt
              -- is swallowed
              let decryptedKey := match st1.encryptedMnemonic with
                | some em =>
                  match decryptMnemonicNip49 em pin with
                  | Except.ok m => { decryptedKey0 with mnemonic := some m }
                  | Except.error _ => decryptedKey0
                | Option.none => decryptedKey0
              let evMnem := match st1.encryptedMnemonic with
                | some _ => [Event.read, Event.kdfDecrypt]
                | Option.none => [Event.read]
              let st2 := recordUnlockStorage st1 now
              let state2 := startUnlockSession state decryptedKey now
              (⟨true, Option.none, some decryptedKey⟩, state2, st2,
                ev1 ++ evHash ++ [Event.read, Event.kdfDecrypt] ++ evMnem ++
                  [Event.read, Event.write])

/-- `unlockWithWebAuthn()` (line 1007).  The outcome of the platform
assertion ceremony (`requestUserVerification`) is the external parameter
`verified`. -/
def unlockWithWebAuthn (state : SecurityState) (st : Storage) (now : Nat)
    (verified : Bool) : UnlockResult × SecurityState × Storage × List Event :=
  if state.authMethod ≠ AuthMethod.webauthn then
    (⟨false, some "WebAuthn authentication is not set up", Option.none⟩, state, st, [])
  else
    match st.webauthnCredential with
    | Option.none =>
      (⟨false, some "No WebAuthn credential found", Option.none⟩, state, st, [Event.read])
    | some _ =>
      if !verified then
        (⟨false, some "Biometric verification failed or was cancelled", Option.none⟩,
          state, st, [Event.read])
      else
        match st.webauthnEncryptionKey with
        | Option.none =>
          (⟨false, some "Encryption key not found", Option.none⟩, state, st,
            [Event.read, Event.read])
        | some encryptionKeyData =>
          match st.encryptedKey with
          | Option.none =>
            (⟨false, some "No encrypted key found", Option.none⟩, state, st,
              [Event.read, Event.read, Event.read])
          | some encryptedKey =>
            match decryptPrivateKeyNip49 encryptedKey encryptionKeyData.key with
            | Except.error msg =>
              (⟨false, some msg, Option.none⟩, state, st,
                [Event.read, Event.read, Event.read, Event.kdfDecrypt])
            | Except.ok privateKeyHex =>
              let decryptedKey0 := privateKeyToKeyPair privateKeyHex
              let decryptedKey := match st.encryptedMnemonic with
                | some em =>
                  match decryptMnemonicNip49 em encryptionKeyData.key with
                  | Except.ok m => { decryptedKey0 with mnemonic := some m }
                  | Except.error _ => decryptedKey0
                | Option.none => decryptedKey0
              let evMnem := match st.encryptedMnemonic with
                | some _ => [Event.read, Event.kdfDecrypt]
                | Option.none => [Event.read]
              let st2 := recordUnlockStorage st now
              let state2 := startUnlockSession state decryptedKey now
              (⟨true, Option.none, some decryptedKey⟩, state2, st2,
                [Event.read, Event.read, Event.read, Event.kdfDecrypt] ++ evMnem ++
                  [Event.read, Event.write])

/-- `setupPINAuth(privateKeyHex, publicKeyHex, pin, pinLength, mnemonic)`
(line 610).  The fresh salts/nonces of the two envelope encryptions are
explicit parameters.  Returns `{success, error}` plus the new state and
storage. -/
def setupPINAuth (state : SecurityState) (st : Storage) (now : Nat)
    (privateKeyHex publicKeyHex : String) (pin : String) (pinLength : Nat)
    (mnemonic : Option String) (saltK nonceK saltM nonceM : Bytes) :
    (Bool × Option String) × SecurityState × Storage :=
  if !(isValidPIN pin (some pinLength)) then
    ((false, some ("PIN must be exactly " ++ toString pinLength ++ " digits")), state, st)
  else
    let ncryptsec := encryptPrivateKeyNip49 privateKeyHex pin NIP49_DEFAULT_LOGN saltK nonceK
    let pinHash := hashPinForVerification pin
    let st1 := storeEncryptedKeyStorage st ncryptsec publicKeyHex
    let st2 := storePinHashStorage st1 pinHash pinLength
    let st3 := match mnemonic with
      | some m =>
        storeEncryptedMnemonicStorage st2 (encryptMnemonicNip49 m pin NIP49_DEFAULT_LOGN saltM nonceM)
      | Option.none => st2
    let state1 := { state with
      authMethod := AuthMethod.pin,
      pinLength := pinLength,
      hasStoredKey := true }
    let decryptedKey := match mnemonic with
      | some m => { privateKeyToKeyPair privateKeyHex with mnemonic := some m }
      | Option.none => privateKeyToKeyPair privateKeyHex
    let state2 := setUnlockedState state1 decryptedKey now
    ((true, Option.none), state2, st3)

/-!
## Concrete fixtures for witnesses and counterexamples
-/

/-- The default security preferences of a fresh record
(`DEFAULT_SECURITY_PREFERENCES`). -/
def defaultPreferences : SecurityPreferences :=
  { authMethod := AuthMethod.none
    pinLength := 6
    lastUnlockAt := Option.none
    failedPinAttempts := 0
    lastFailedAttemptAt := Option.none
    autoLockEnabled := false }

/-- An empty security record. -/
def storage0 : Storage :=
  { encryptedKey := Option.none
    encryptedMnemonic := Option.none
    pinHash := Option.none
    publicKeyHex := Option.none
    npub := Option.none
    webauthnCredential := Option.none
    webauthnEncryptionKey := Option.none
    preferences := defaultPreferences }

/-- A fresh in-memory state (locked, no session, auto-lock off — the
default). -/
def state0 : SecurityState :=
  { authMethod := AuthMethod.none
    pinLength := 6
    webauthnAvailable := false
    hasStoredKey := false
    isUnlocked := false
    unlockExpiresAt := Option.none
    autoLockEnabled := false
    currentUnlockedKey := Option.none }

def statePin6 : SecurityState :=
  { state0 with authMethod := AuthMethod.pin, hasStoredKey := true }

/-!
## Claim C6 — session expiry when auto-lock is off
-/

/-- Claim C6, counterexample: a session opened by the setup operation
`setupPINAuth` while `autoLockEnabled` is false does have an expiry —
`setUnlockedState` sets `unlockExpiresAt = now + UNLOCK_SESSION_DURATION`
unconditionally — and `getUnlockedKey` one millisecond after that expiry
returns null instead of the key. -/
theorem C6_counterexample :
    state0.autoLockEnabled = false ∧
      (setupPINAuth state0 storage0 1000 "aa" "bb" "123456" 6 Option.none
        (List.replicate 16 0) (List.replicate 24 0) (List.replicate 16 0)
        (List.replicate 24 0)).1.1 = true ∧
      (setupPINAuth state0 storage0 1000 "aa" "bb" "123456" 6 Option.none
        (List.replicate 16 0) (List.replicate 24 0) (List.replicate 16 0)
        (List.replicate 24 0)).2.1.unlockExpiresAt = some 301000 ∧
      (getUnlockedKey (setupPINAuth state0 storage0 1000 "aa" "bb" "123456" 6 Option.none
        (List.replicate 16 0) (List.replicate 24 0) (List.replicate 16 0)
        (List.replicate 24 0)).2.1 301001).1 = Option.none :=
  ⟨rfl, rfl, rfl, rfl⟩

/-- Claim C6, amended: a session opened by an *unlock* operation (all of
which call `startUnlockSession`) while `autoLockEnabled` is false has no
expiry — `unlockExpiresAt` is null and `getUnlockedKey` at any later time
still returns the key; but a session opened by a *setup* operation (which
calls `setUnlockedState`) gets `unlockExpiresAt = now + 5 minutes` even
with auto-lock off, and accessing it after that time returns null. -/
theorem C6_no_expiry_for_unlock_sessions (s : SecurityState) (key : DecryptedKey)
    (now t : Nat) (h : s.autoLockEnabled = false) :
    (startUnlockSession s key now).unlockExpiresAt = Option.none ∧
      getUnlockedKey (startUnlockSession s key now) t =
        (some key, startUnlockSession s key now) ∧
      (setUnlockedState s key now).unlockExpiresAt =
        some (now + UNLOCK_SESSION_DURATION) := by
  have hs : startUnlockSession s key now =
      { s with
        currentUnlockedKey := some key,
        isUnlocked := true,
        unlockExpiresAt := Option.none } := by
    unfold startUnlockSession
    rw [if_neg (by simp [h])]
  refine ⟨by rw [hs], ?_, rfl⟩
  rw [hs]
  unfold getUnlockedKey
  simp [jsTruthyOptNat]

/-- Claim C6, witness: the amended theorem at a concrete unlock session,
accessed a year later. -/
theorem C6_no_expiry_for_unlock_sessions_witness :
    (startUnlockSession statePin6 ⟨"aa", Option.none⟩ 1000).unlockExpiresAt =
        Option.none ∧
      getUnlockedKey (startUnlockSession statePin6 ⟨"aa", Option.none⟩ 1000)
          31536001000 =
        (some ⟨"aa", Option.none⟩, startUnlockSession statePin6 ⟨"aa", Option.none⟩ 1000) ∧
      (setUnlockedState statePin6 ⟨"aa", Option.none⟩ 1000).unlockExpiresAt =
        some (1000 + UNLOCK_SESSION_DURATION) :=
  C6_no_expiry_for_unlock_sessions statePin6 ⟨"aa", Option.none⟩ 1000 31536001000 rfl

/-!
## Claim C7 — format-invalid PIN rejection
-/

/-- Claim C7, counterexample: for a format-invalid PIN the code performs a
storage read *before* rejecting — `unlockWithPIN` runs `checkRateLimit`
(which reads the failed-attempt counters from storage) ahead of the format
check — and the rejection message is "PIN must be N digits", not
"PIN must be exactly N digits". -/
theorem C7_counterexample :
    (unlockWithPIN statePin6 storage0 5 "123").2.2.2 = [Event.read] ∧
      Event.read ∈ (unlockWithPIN statePin6 storage0 5 "123").2.2.2 ∧
      (unlockWithPIN statePin6 storage0 5 "123").1.error =
        some "PIN must be 6 digits" ∧
      ("PIN must be 6 digits" : String) ≠ "PIN must be exactly 6 digits" :=
  ⟨rfl, by decide, rfl, by decide⟩

/-- Claim C7, amended: every PIN whose digit count differs from the
configured length is rejected with the explicit "PIN must be N digits"
message, with no decryption, no PIN-hash check, no cryptographic work, no
storage write, and no change to the failure counter or any state — but
*after* the rate-limit check, whose single storage read is the operation's
only effect. -/
theorem C7_invalid_pin_rejected (state : SecurityState) (st : Storage) (now : Nat)
    (pin : String) (hauth : state.authMethod = AuthMethod.pin)
    (hcount : st.preferences.failedPinAttempts < PIN_RATE_LIMIT.maxAttempts)
    (hpin : isValidPIN pin (some state.pinLength) = false) :
    unlockWithPIN state st now pin =
      (⟨false, some ("PIN must be " ++ toString state.pinLength ++ " digits"),
        Option.none⟩, state, st, [Event.read]) := by
  unfold unlockWithPIN checkRateLimit
  rw [hauth]
  simp only [ne_eq, not_true_eq_false, if_false, if_pos hcount, hpin]
  simp

/-- Claim C7, witness: the amended theorem at a concrete input. -/
theorem C7_invalid_pin_rejected_witness :
    unlockWithPIN statePin6 storage0 5 "12" =
      (⟨false, some ("PIN must be " ++ toString statePin6.pinLength ++ " digits"),
        Option.none⟩, statePin6, storage0, [Event.read]) :=
  C7_invalid_pin_rejected statePin6 storage0 5 "12" rfl (by decide) (by decide)

/-!
## Claim C5 — a verifier-hash match alone never grants access
-/

/-- Claim C5: if the stored PIN verification hash matches the entered PIN
but the stored key envelope fails to decrypt, `unlockWithPIN` returns the
decryption error as a failure, records a failed attempt, and leaves the
in-memory state untouched — no unlock session is opened. -/
theorem C5_verifier_match_not_sufficient (state : SecurityState) (st : Storage)
    (now : Nat) (pin : String) (env : Bech32Str) (msg : String)
    (hauth : state.authMethod = AuthMethod.pin)
    (hcount : st.preferences.failedPinAttempts < PIN_RATE_LIMIT.maxAttempts)
    (hpin : isValidPIN pin (some state.pinLength) = true)
    (hhash : st.pinHash = some (hashPinForVerification pin))
    (henc : st.encryptedKey = some env)
    (hdec : decryptPrivateKeyNip49 env pin = Except.error msg) :
    unlockWithPIN state st now pin =
      (⟨false, some msg, Option.none⟩, state, recordFailedPinAttemptStorage st now,
        [Event.read, Event.read, Event.kdfVerify, Event.read, Event.kdfDecrypt,
          Event.read, Event.read, Event.write]) := by
  unfold unlockWithPIN checkRateLimit
  rw [hauth]
  simp only [ne_eq, not_true_eq_false, if_false, if_pos hcount, hpin, hhash, henc, hdec]
  simp [verifyPin, hashPinForVerification]

/-- Claim C5, witness: a storage state whose PIN hash matches "123456" but
whose envelope carries garbage ciphertext. -/
theorem C5_verifier_match_not_sufficient_witness :
    unlockWithPIN statePin6
      { storage0 with
        pinHash := some (hashPinForVerification "123456"),
        encryptedKey := some ⟨"ncryptsec",
          [2, 1] ++ List.replicate 16 0 ++ List.replicate 24 0 ++ [2, 9]⟩ }
      1000 "123456" =
      (⟨false, some "invalid tag", Option.none⟩, statePin6,
        recordFailedPinAttemptStorage
          { storage0 with
            pinHash := some (hashPinForVerification "123456"),
            encryptedKey := some ⟨"ncryptsec",
              [2, 1] ++ List.replicate 16 0 ++ List.replicate 24 0 ++ [2, 9]⟩ } 1000,
        [Event.read, Event.read, Event.kdfVerify, Event.read, Event.kdfDecrypt,
          Event.read, Event.read, Event.write]) :=
  C5_verifier_match_not_sufficient statePin6 _ 1000 "123456"
    ⟨"ncryptsec", [2, 1] ++ List.replicate 16 0 ++ List.replicate 24 0 ++ [2, 9]⟩
    "invalid tag" rfl (by decide) (by decide) rfl rfl (by rfl)

/-!
## Claim C10 — missing verifier hash: decryption alone decides
-/

/-- Claim C10: when the auth method is PIN but the stored verification
hash is null, `unlockWithPIN` skips the verifier check entirely (no
pbkdf2 verification work appears in the trace) and the AEAD decryption
alone decides the outcome: unlock succeeds exactly when the envelope
decrypts under the entered PIN, and a decryption failure is returned
as-is. -/
theorem C10_missing_hash_decrypt_decides (state : SecurityState) (st : Storage)
    (now : Nat) (pin : String) (env : Bech32Str)
    (hauth : state.authMethod = AuthMethod.pin)
    (hcount : st.preferences.failedPinAttempts < PIN_RATE_LIMIT.maxAttempts)
    (hpin : isValidPIN pin (some state.pinLength) = true)
    (hhash : st.pinHash = Option.none)
    (henc : st.encryptedKey = some env) :
    Event.kdfVerify ∉ (unlockWithPIN state st now pin).2.2.2 ∧
      ((unlockWithPIN state st now pin).1.success = true ↔
        ∃ hex, decryptPrivateKeyNip49 env pin = Except.ok hex) ∧
      (∀ msg, decryptPrivateKeyNip49 env pin = Except.error msg →
        (unlockWithPIN state st now pin).1 = ⟨false, some msg, Option.none⟩) := by
  unfold unlockWithPIN checkRateLimit
  rw [hauth]
  simp only [ne_eq, not_true_eq_false, if_false, if_pos hcount, hpin, hhash, henc]
  rcases hd : decryptPrivateKeyNip49 env pin with msg | hex
  · simp
  · rcases hm : st.encryptedMnemonic with _ | em
    · simp
    · rcases hdm : decryptMnemonicNip49 em pin with m | msgM <;> simp

/-- Claim C10, witness: a record with a stored envelope and no PIN hash;
the correct PIN unlocks, with no verifier work in the trace. -/
theorem C10_missing_hash_decrypt_decides_witness :
    Event.kdfVerify ∉ (unlockWithPIN statePin6
      { storage0 with
        encryptedKey := some (encryptPrivateKeyNip49 "aabb" "123456" 16
          (List.replicate 16 1) (List.replicate 24 2)) } 1000 "123456").2.2.2 ∧
      (unlockWithPIN statePin6
        { storage0 with
          encryptedKey := some (encryptPrivateKeyNip49 "aabb" "123456" 16
            (List.replicate 16 1) (List.replicate 24 2)) } 1000 "123456").1.success =
        true := by
  have h := C10_missing_hash_decrypt_decides statePin6
    { storage0 with
      encryptedKey := some (encryptPrivateKeyNip49 "aabb" "123456" 16
        (List.replicate 16 1) (List.replicate 24 2)) }
    1000 "123456"
    (encryptPrivateKeyNip49 "aabb" "123456" 16 (List.replicate 16 1) (List.replicate 24 2))
    rfl (by decide) (by decide) rfl rfl
  exact ⟨h.1, h.2.1.mpr ⟨bytesToHex (hexToBytes "aabb"), by rfl⟩⟩

/-!
## Claim C3 — lockout enforcement
-/

/-- Claim C3: with `failedPinAttempts ≥ 5` and a last-failure time less
than 5 minutes ago, a PIN unlock attempt — with any PIN, the correct one
included — is refused with a "try again in N seconds" message for a
positive N; the operation performs only the single storage read of the
rate-limit check (no decryption, no KDF work), leaves the storage (and so
the failure counter) and the in-memory state unchanged.  Once the 5-minute
window has elapsed, the counter is reset and a correct-PIN unlock
succeeds, leaving the counter at zero. -/
theorem C3_lockout_enforcement (state : SecurityState) (st : Storage)
    (now t : Nat) (pin : String)
    (hauth : state.authMethod = AuthMethod.pin)
    (hcount : PIN_RATE_LIMIT.maxAttempts ≤ st.preferences.failedPinAttempts)
    (hlast : st.preferences.lastFailedAttemptAt = some t)
    (ht0 : 0 < t) (htn : t ≤ now) :
    (now - t < PIN_RATE_LIMIT.lockoutDuration →
      0 < (PIN_RATE_LIMIT.lockoutDuration - (now - t) + 999) / 1000 ∧
        unlockWithPIN state st now pin =
          (⟨false, some ("Too many failed attempts. Try again in " ++
              toString ((PIN_RATE_LIMIT.lockoutDuration - (now - t) + 999) / 1000) ++
              " seconds."), Option.none⟩, state, st, [Event.read])) ∧
      (PIN_RATE_LIMIT.lockoutDuration ≤ now - t →
        ∀ (b salt nonce : Bytes), salt.length = 16 → nonce.length = 24 →
          st.encryptedKey = some (nip49Encrypt b pin NIP49_DEFAULT_LOGN 2 salt nonce) →
          st.pinHash = some (hashPinForVerification pin) →
          st.encryptedMnemonic = Option.none →
          isValidPIN pin (some state.pinLength) = true →
          (unlockWithPIN state st now pin).1.success = true ∧
            (unlockWithPIN state st now pin).2.2.1.preferences.failedPinAttempts = 0) := by
  have hjt : jsTruthyOptNat (some t) = true := by
    simp [jsTruthyOptNat]
    omega
  constructor
  · intro hwin
    have hrl : checkRateLimit st now =
        (⟨true, some (PIN_RATE_LIMIT.lockoutDuration - (now - t))⟩, st, [Event.read]) := by
      unfold checkRateLimit
      rw [hlast, if_neg (Nat.not_lt.mpr hcount), if_pos hjt]
      simp only [Option.getD_some]
      rw [if_pos hwin]
    constructor
    · exact Nat.div_pos (by omega) (by norm_num)
    · unfold unlockWithPIN
      rw [hauth]
      simp only [ne_eq, not_true_eq_false, if_false, hrl]
      simp
  · intro hwin b salt nonce hs hn henc hhash hmn hpin
    have hrl : checkRateLimit st now =
        (⟨false, Option.none⟩, resetFailedPinAttemptsStorage st,
          [Event.read, Event.read, Event.write]) := by
      unfold checkRateLimit
      rw [hlast, if_neg (Nat.not_lt.mpr hcount), if_pos hjt]
      simp only [Option.getD_some]
      rw [if_neg (Nat.not_lt.mpr hwin)]
    have hdec : decryptPrivateKeyNip49 (nip49Encrypt b pin NIP49_DEFAULT_LOGN 2 salt nonce)
        pin = Except.ok (bytesToHex b) := by
      unfold decryptPrivateKeyNip49
      rw [nip49Decrypt_encrypt b pin NIP49_DEFAULT_LOGN 2 salt nonce hs hn (by decide)]
      rfl
    unfold unlockWithPIN
    rw [hauth]
    simp only [ne_eq, not_true_eq_false, if_false, hrl]
    simp only [resetFailedPinAttemptsStorage, hpin, hhash, henc, hmn, hdec]
    simp [verifyPin, hashPinForVerification, recordUnlockStorage]

/-- Claim C3, witness: a locked-out record refuses the correct PIN with a
positive wait time; after the window, the same PIN succeeds and the
counter is reset. -/
theorem C3_lockout_enforcement_witness :
    (0 < (PIN_RATE_LIMIT.lockoutDuration - (2000 - 1000) + 999) / 1000 ∧
      unlockWithPIN statePin6
        { storage0 with
          encryptedKey := some (nip49Encrypt [7] "123456" NIP49_DEFAULT_LOGN 2
            (List.replicate 16 1) (List.replicate 24 2)),
          pinHash := some (hashPinForVerification "123456"),
          preferences := { defaultPreferences with
            failedPinAttempts := 5,
            lastFailedAttemptAt := some 1000 } } 2000 "123456" =
        (⟨false, some ("Too many failed attempts. Try again in " ++
            toString ((PIN_RATE_LIMIT.lockoutDuration - (2000 - 1000) + 999) / 1000) ++
            " seconds."), Option.none⟩, statePin6,
          { storage0 with
            encryptedKey := some (nip49Encrypt [7] "123456" NIP49_DEFAULT_LOGN 2
              (List.replicate 16 1) (List.replicate 24 2)),
            pinHash := some (hashPinForVerification "123456"),
            preferences := { defaultPreferences with
              failedPinAttempts := 5,
              lastFailedAttemptAt := some 1000 } }, [Event.read])) ∧
      ((unlockWithPIN statePin6
          { storage0 with
            encryptedKey := some (nip49Encrypt [7] "123456" NIP49_DEFAULT_LOGN 2
              (List.replicate 16 1) (List.replicate 24 2)),
            pinHash := some (hashPinForVerification "123456"),
            preferences := { defaultPreferences with
              failedPinAttempts := 5,
              lastFailedAttemptAt := some 1000 } } 600000 "123456").1.success = true ∧
        (unlockWithPIN statePin6
          { storage0 with
            encryptedKey := some (nip49Encrypt [7] "123456" NIP49_DEFAULT_LOGN 2
              (List.replicate 16 1) (List.replicate 24 2)),
            pinHash := some (hashPinForVerification "123456"),
            preferences := { defaultPreferences with
              failedPinAttempts := 5,
              lastFailedAttemptAt := some 1000 } } 600000
            "123456").2.2.1.preferences.failedPinAttempts = 0) := by
  constructor
  · exact (C3_lockout_enforcement statePin6 _ 2000 1000 "123456" rfl (by decide) rfl
      (by decide) (by decide)).1 (by decide)
  · exact (C3_lockout_enforcement statePin6 _ 600000 1000 "123456" rfl (by decide) rfl
      (by decide) (by decide)).2 (by decide) [7] (List.replicate 16 1)
      (List.replicate 24 2) (by decide) (by decide) rfl rfl rfl (by decide)

/-!
## Claim C8 — a failed mnemonic decrypt never fails the unlock
-/

/-- Claim C8: when the key envelope decrypts but the stored mnemonic
envelope does not, the unlock still succeeds and returns the key with the
mnemonic field absent — for the PIN unlock and for the WebAuthn unlock. -/
theorem C8_mnemonic_failure_swallowed (state stateW : SecurityState)
    (st stW : Storage) (now : Nat) (pin : String) (envK envM envKW envMW : Bech32Str)
    (hex hexW msgM msgMW : String) (cred : StoredCredential)
    (kd : WebAuthnEncryptionKey) :
    ((state.authMethod = AuthMethod.pin →
      st.preferences.failedPinAttempts < PIN_RATE_LIMIT.maxAttempts →
      isValidPIN pin (some state.pinLength) = true →
      st.pinHash = some (hashPinForVerification pin) →
      st.encryptedKey = some envK →
      decryptPrivateKeyNip49 envK pin = Except.ok hex →
      st.encryptedMnemonic = some envM →
      decryptMnemonicNip49 envM pin = Except.error msgM →
      (unlockWithPIN state st now pin).1 =
        ⟨true, Option.none, some ⟨hex, Option.none⟩⟩) ∧
      (stateW.authMethod = AuthMethod.webauthn →
        stW.webauthnCredential = some cred →
        stW.webauthnEncryptionKey = some kd →
        stW.encryptedKey = some envKW →
        decryptPrivateKeyNip49 envKW kd.key = Except.ok hexW →
        stW.encryptedMnemonic = some envMW →
        decryptMnemonicNip49 envMW kd.key = Except.error msgMW →
        (unlockWithWebAuthn stateW stW now true).1 =
          ⟨true, Option.none, some ⟨hexW, Option.none⟩⟩)) := by
  constructor
  · intro hauth hcount hpin hhash henc hdec hmn hdm
    unfold unlockWithPIN checkRateLimit
    rw [hauth]
    simp only [ne_eq, not_true_eq_false, if_false, if_pos hcount, hpin, hhash, henc,
      hdec, hmn, hdm]
    simp [verifyPin, hashPinForVerification, privateKeyToKeyPair]
  · intro hauth hcred hkd henc hdec hmn hdm
    unfold unlockWithWebAuthn
    rw [hauth]
    simp only [ne_eq, not_true_eq_false, if_false, hcred, hkd, henc, hdec, hmn, hdm]
    simp [privateKeyToKeyPair]

/-- Claim C8, witness: a record whose key envelope decrypts under the PIN
(and, for WebAuthn, under the stored random secret) while the mnemonic
envelope is garbage. -/
theorem C8_mnemonic_failure_swallowed_witness :
    (unlockWithPIN statePin6
      { storage0 with
        pinHash := some (hashPinForVerification "123456"),
        encryptedKey := some (encryptPrivateKeyNip49 "aabb" "123456" 16
          (List.replicate 16 1) (List.replicate 24 2)),
        encryptedMnemonic := some ⟨"ncryptmnem",
          [2, 1] ++ List.replicate 16 0 ++ List.replicate 24 0 ++ [0, 9]⟩ }
      1000 "123456").1 =
      ⟨true, Option.none, some ⟨bytesToHex (hexToBytes "aabb"), Option.none⟩⟩ ∧
    (unlockWithWebAuthn { state0 with authMethod := AuthMethod.webauthn }
      { storage0 with
        webauthnCredential := some ⟨"cid", "cpk", 0, 0⟩,
        webauthnEncryptionKey := some ⟨"rnd", 0⟩,
        encryptedKey := some (encryptPrivateKeyNip49 "aabb" "rnd" 16
          (List.replicate 16 1) (List.replicate 24 2)),
        encryptedMnemonic := some ⟨"ncryptmnem",
          [2, 1] ++ List.replicate 16 0 ++ List.replicate 24 0 ++ [0, 9]⟩ }
      1000 true).1 =
      ⟨true, Option.none, some ⟨bytesToHex (hexToBytes "aabb"), Option.none⟩⟩ := by
  have h := C8_mnemonic_failure_swallowed statePin6
    { state0 with authMethod := AuthMethod.webauthn }
    { storage0 with
      pinHash := some (hashPinForVerification "123456"),
      encryptedKey := some (encryptPrivateKeyNip49 "aabb" "123456" 16
        (List.replicate 16 1) (List.replicate 24 2)),
      encryptedMnemonic := some ⟨"ncryptmnem",
        [2, 1] ++ List.replicate 16 0 ++ List.replicate 24 0 ++ [0, 9]⟩ }
    { storage0 with
      webauthnCredential := some ⟨"cid", "cpk", 0, 0⟩,
      webauthnEncryptionKey := some ⟨"rnd", 0⟩,
      encryptedKey := some (encryptPrivateKeyNip49 "aabb" "rnd" 16
        (List.replicate 16 1) (List.replicate 24 2)),
      encryptedMnemonic := some ⟨"ncryptmnem",
        [2, 1] ++ List.replicate 16 0 ++ List.replicate 24 0 ++ [0, 9]⟩ }
    1000 "123456"
    (encryptPrivateKeyNip49 "aabb" "123456" 16 (List.replicate 16 1) (List.replicate 24 2))
    ⟨"ncryptmnem", [2, 1] ++ List.replicate 16 0 ++ List.replicate 24 0 ++ [0, 9]⟩
    (encryptPrivateKeyNip49 "aabb" "rnd" 16 (List.replicate 16 1) (List.replicate 24 2))
    ⟨"ncryptmnem", [2, 1] ++ List.replicate 16 0 ++ List.replicate 24 0 ++ [0, 9]⟩
    (bytesToHex (hexToBytes "aabb")) (bytesToHex (hexToBytes "aabb"))
    "invalid tag" "invalid tag" ⟨"cid", "cpk", 0, 0⟩ ⟨"rnd", 0⟩
  exact ⟨h.1 rfl (by decide) (by decide) rfl rfl (by rfl) rfl (by rfl),
    h.2 rfl rfl rfl rfl (by rfl) rfl (by rfl)⟩

end Plebtap
